import Mathlib

/-!
Verification of the caching + bounded-concurrency subsystem of the
stock-prediction dashboard frontend.

The embedding covers:
* `PersistentStorage` (TTL key/value cache, `src/utils/requestQueue.ts` /
  storage part): `set`, `get`, `remove`, `clearAll`, `clearExpired`.
* `RequestQueue` (bounded FIFO concurrency queue, `src/utils/requestQueue.ts`):
  modelled as a state machine with `add` and task-completion events.
* The cache-aside orchestrator `fetchWithCache`, the background prefetch
  scheduler `prefetchAllStocksDetails`, the manual refresh `refreshStocksData`,
  and the derived-metrics computation shared by `fetchStocks` /
  `fetchStockDetail` (all in `src/services/api.ts`).

Time is an explicit `Nat` parameter (`now`, the value of `Date.now()`),
JS numbers in the metrics computation are modelled as rationals, and a
fetcher / queued operation is modelled by its outcome `Except ε α`.
-/

namespace StockApp

/-- `CacheItem<T>` from the storage module: `{value, timestamp, expiry}`,
with `expiry = timestamp + ttl` established by `set`. -/
structure CacheItem (V : Type) where
  value : V
  timestamp : Nat
  expiry : Nat
  deriving DecidableEq, Repr

/-- The contents of the store's `localStorage` namespace: each key of this
store maps to at most one `CacheItem`.  (The `stock_app_cache_` key
namespace is private to the store, so we model the namespaced view
directly; keys outside it are not observable through the store API.) -/
def Store (V : Type) : Type := String → Option (CacheItem V)

/-- The empty `localStorage` namespace. -/
def Store.empty (V : Type) : Store V := fun _ => none

/-- Result shape of `PersistentStorage.get`:
`{ value, isExpired, timestamp }`. -/
structure GetResult (V : Type) where
  value : V
  isExpired : Bool
  timestamp : Nat
  deriving DecidableEq, Repr

namespace PersistentStorage

/-- `set(key, value, ttl)`: stores `{value, timestamp: now, expiry: now + ttl}`
under `key`, overwriting any prior entry.  (The `catch` branch for quota
errors never fires in the model: the modelled write always succeeds,
matching the claim's "after set succeeds".) -/
def set {V : Type} (s : Store V) (key : String) (value : V) (ttl : Nat)
    (now : Nat) : Store V :=
  fun k => if k = key then some ⟨value, now, now + ttl⟩ else s k

/-- `get(key)`: `null` if absent, otherwise
`{ value, isExpired: now > expiry, timestamp }`.  The method performs no
write: an expired entry is returned, not deleted. -/
def get {V : Type} (s : Store V) (key : String) (now : Nat) :
    Option (GetResult V) :=
  match s key with
  | none => none
  | some item => some ⟨item.value, decide (item.expiry < now), item.timestamp⟩

/-- `remove(key)`: deletes one entry, no-op if absent. -/
def remove {V : Type} (s : Store V) (key : String) : Store V :=
  fun k => if k = key then none else s k

/-- `clearAll()`: deletes every entry in this store's namespace. -/
def clearAll {V : Type} (_s : Store V) : Store V :=
  fun _ => none

/-- `clearExpired()`: deletes exactly the entries whose expiry has passed
(`now > expiry`). -/
def clearExpired {V : Type} (s : Store V) (now : Nat) : Store V :=
  fun k =>
    match s k with
    | none => none
    | some item => if item.expiry < now then none else some item

end PersistentStorage

/-- The observable outcome of one `fetchWithCache` call: the settled value
of the returned promise, the store contents afterwards, and how many
operations were submitted to the request queue (`apiQueue.add`). -/
structure FetchOutcome (E V : Type) where
  result : Except E V
  store : Store V
  queuedCalls : Nat

/-- `fetchWithCache(key, fetcher, forceRefresh)` from `api.ts`:
1. read the cache; if an entry exists, is not expired and no force refresh
   was requested, return it (no queue interaction);
2. otherwise run the fetcher through the queue (`fetcher` is modelled by
   its settled outcome);
3. on success persist the result with the default TTL and return it;
4. on failure return the cached value if any entry (fresh or stale) was
   seen at step 1, else rethrow the error. -/
def fetchWithCache {E V : Type} (s : Store V) (key : String)
    (fetcher : Except E V) (forceRefresh : Bool) (now ttl : Nat) :
    FetchOutcome E V :=
  let cached := PersistentStorage.get s key now
  match cached with
  | some c =>
      if !c.isExpired && !forceRefresh then
        { result := Except.ok c.value, store := s, queuedCalls := 0 }
      else
        match fetcher with
        | Except.ok data =>
            { result := Except.ok data
              store := PersistentStorage.set s key data ttl now
              queuedCalls := 1 }
        | Except.error _ =>
            { result := Except.ok c.value, store := s, queuedCalls := 1 }
  | none =>
      match fetcher with
      | Except.ok data =>
          { result := Except.ok data
            store := PersistentStorage.set s key data ttl now
            queuedCalls := 1 }
      | Except.error e =>
          { result := Except.error e, store := s, queuedCalls := 1 }

/-- `true` exactly when `storage.get(k)?.isExpired === false`: a
non-expired cache entry exists. -/
def freshHit {V : Type} (r : Option (GetResult V)) : Bool :=
  match r with
  | some g => !g.isExpired
  | none => false

/-- The three per-entity cache kinds warmed by the prefetch scheduler. -/
inductive DataKind : Type
  | detail
  | history
  | prediction
  deriving DecidableEq, Repr

/-- The cache keys probed by `prefetchAllStocksDetails` for a stock `code`:
`stock_detail_<code>`, `stock_history_<code>_30`, `stock_prediction_<code>`. -/
def prefetchKey (kind : DataKind) (code : String) : String :=
  match kind with
  | DataKind.detail => "stock_detail_" ++ code
  | DataKind.history => "stock_history_" ++ code ++ "_30"
  | DataKind.prediction => "stock_prediction_" ++ code

/-- One loop body of `prefetchAllStocksDetails`: for each of the three
kinds, check `storage.get(key)?.isExpired === false`; if no fresh entry,
initiate the corresponding orchestrator fetch fire-and-forget.  We record
the initiated fetches as a list of `(code, kind)` pairs — results and
errors are discarded at the call site (`.catch(() => {})`). -/
def prefetchOne {V : Type} (s : Store V) (now : Nat) (code : String) :
    List (String × DataKind) :=
  let hasDetail := freshHit (PersistentStorage.get s (prefetchKey DataKind.detail code) now)
  let hasHistory := freshHit (PersistentStorage.get s (prefetchKey DataKind.history code) now)
  let hasPrediction := freshHit (PersistentStorage.get s (prefetchKey DataKind.prediction code) now)
  (if !hasDetail then [(code, DataKind.detail)] else []) ++
  (if !hasHistory then [(code, DataKind.history)] else []) ++
  (if !hasPrediction then [(code, DataKind.prediction)] else [])

/-- `prefetchAllStocksDetails(stocks)`: for every stock of the just-fetched
list, probe the three cache keys and initiate the missing refreshes; the
returned list records the initiated `(code, kind)` fetches in order. -/
def prefetchAllStocksDetails {V : Type} (s : Store V) (stocks : List String)
    (now : Nat) : List (String × DataKind) :=
  stocks.flatMap (prefetchOne s now)

/-- The cache key of the list fetch in `fetchStocks`. -/
def stocksListKey : String := "stocks_list"

/-- `refreshStocksData()`: clear the whole cache namespace, then re-run
`fetchStocks`, whose network path is one `fetchWithCache` call on
`stocks_list` with no force-refresh flag. -/
def refreshStocksData {E V : Type} (s : Store V) (fetcher : Except E V)
    (now ttl : Nat) : FetchOutcome E V :=
  fetchWithCache (PersistentStorage.clearAll s) stocksListKey fetcher false now ttl

/-- `Number(x.toFixed(2))`: round to 2 decimal places (JS numbers modelled
as rationals, rounding to nearest). -/
def toFixed2 (x : ℚ) : ℚ := (round (x * 100) : ℤ) / 100

/-- The derived-metrics fields shared by `fetchStocks` and
`fetchStockDetail`. -/
structure StockChanges where
  change1 : ℚ
  changePercent1 : ℚ
  change2 : ℚ
  changePercent2 : ℚ
  averageChange : ℚ
  averageChangePercent : ℚ
  deriving DecidableEq, Repr

/-- The derived-metrics computation of `fetchStocks` (and, verbatim, of
`fetchStockDetail`): absolute deltas of the two predicted prices against
the current price, percentage deltas guarded by `currentPrice !== 0`
(defined as `0` when the current price is `0`), and their unweighted
average. -/
def computeChanges (currentPrice price1 price2 : ℚ) : StockChanges :=
  let change1 := price1 - currentPrice
  let change2 := price2 - currentPrice
  let averageChange := (change1 + change2) / 2
  { change1 := change1
    changePercent1 :=
      if currentPrice ≠ 0 then toFixed2 (change1 / currentPrice * 100) else 0
    change2 := change2
    changePercent2 :=
      if currentPrice ≠ 0 then toFixed2 (change2 / currentPrice * 100) else 0
    averageChange := averageChange
    averageChangePercent :=
      if currentPrice ≠ 0 then toFixed2 (averageChange / currentPrice * 100) else 0 }

namespace RequestQueue

/-- The observable state of one `RequestQueue` together with the ghost
logs needed to state ordering properties.  Tasks are identified by `Nat`
ids; `pending` is the `queue` array (FIFO), `running` the ids of admitted,
not-yet-settled tasks (`activeCount` is its length), `settled` the
outcomes delivered to the returned handles, `admitted` the admission log
and `addLog` the `add()` call log (both ghost). -/
structure QueueState (E V : Type) where
  pending : List Nat
  running : List Nat
  settled : List (Nat × Except E V)
  admitted : List Nat
  addLog : List Nat
  concurrency : Nat
  deriving Repr

/-- `processNext()`: if `activeCount >= concurrency` or the queue is
empty, return; otherwise shift the head of the queue, increment
`activeCount` and invoke its operation (the task becomes running). -/
def processNext {E V : Type} (s : QueueState E V) : QueueState E V :=
  if s.concurrency ≤ s.running.length then s
  else
    match s.pending with
    | [] => s
    | item :: rest =>
        { s with
          pending := rest
          running := s.running ++ [item]
          admitted := s.admitted ++ [item] }

/-- `add(task)`: push the task onto the queue and call `processNext()`
(synchronously, inside the promise executor). -/
def add {E V : Type} (s : QueueState E V) (t : Nat) : QueueState E V :=
  processNext { s with pending := s.pending ++ [t], addLog := s.addLog ++ [t] }

/-- The synchronous part of the `.finally` continuation's prefix: the
settled promise of task `t` delivers outcome `o` to the task's own handle
(`.then(item.resolve).catch(item.reject)`), and `activeCount` is
decremented — unconditionally, whatever `o` is. -/
def settleTask {E V : Type} (s : QueueState E V) (t : Nat) (o : Except E V) :
    QueueState E V :=
  { s with running := s.running.erase t, settled := s.settled ++ [(t, o)] }

/-- The full completion handler for task `t`: deliver the outcome, release
the capacity unit, then `processNext()`. -/
def finish {E V : Type} (s : QueueState E V) (t : Nat) (o : Except E V) :
    QueueState E V :=
  processNext (settleTask s t o)

/-- The queue constructed with `new RequestQueue(c)`. -/
def initState (E V : Type) (c : Nat) : QueueState E V :=
  { pending := [], running := [], settled := [], admitted := [], addLog := []
    concurrency := c }

/-- One event of the event loop touching the queue, parameterised by the
environment `out` giving each task's operation outcome: either some
caller invokes `add`, or a running task's operation settles with its own
outcome and the completion handler runs. -/
inductive Step {E V : Type} (out : Nat → Except E V) :
    QueueState E V → QueueState E V → Prop
  | add (s : QueueState E V) (t : Nat) : Step out s (add s t)
  | complete (s : QueueState E V) (t : Nat) (h : t ∈ s.running) :
      Step out s (finish s t (out t))

/-- States reachable from a freshly constructed queue by any interleaving
of `add` calls and task completions. -/
inductive Reach {E V : Type} (out : Nat → Except E V) (c : Nat) :
    QueueState E V → Prop
  | init : Reach out c (initState E V c)
  | step {s s' : QueueState E V} : Reach out c s → Step out s s' → Reach out c s'

end RequestQueue

/-! ### Helper lemmas -/

namespace RequestQueue

/-- The queue's inductive invariant: `activeCount` (the number of running
tasks) never exceeds the capacity; the `add()` log equals the admission
log followed by the pending queue (admission is FIFO and each task is
admitted at most once); and every settled handle carries its own task's
outcome. -/
def QueueInv {E V : Type} (out : Nat → Except E V) (s : QueueState E V) :
    Prop :=
  s.running.length ≤ s.concurrency ∧
  s.addLog = s.admitted ++ s.pending ∧
  ∀ p ∈ s.settled, p.2 = out p.1

theorem queueInv_processNext {E V : Type} {out : Nat → Except E V}
    {s : QueueState E V} (h : QueueInv out s) :
    QueueInv out (processNext s) := by
  obtain ⟨hlen, hlog, hset⟩ := h
  unfold processNext
  split
  · exact ⟨hlen, hlog, hset⟩
  · rename_i hlt
    cases hp : s.pending with
    | nil => exact ⟨hlen, hlog, hset⟩
    | cons item rest =>
        refine ⟨?_, ?_, hset⟩
        · simp only [List.length_append, List.length_singleton]
          omega
        · simp only [hlog, hp, List.append_assoc, List.singleton_append]

theorem queueInv_add {E V : Type} {out : Nat → Except E V}
    {s : QueueState E V} (h : QueueInv out s) (t : Nat) :
    QueueInv out (add s t) := by
  obtain ⟨hlen, hlog, hset⟩ := h
  exact queueInv_processNext ⟨hlen, by simp [hlog], hset⟩

theorem queueInv_finish {E V : Type} {out : Nat → Except E V}
    {s : QueueState E V} (h : QueueInv out s) (t : Nat) :
    QueueInv out (finish s t (out t)) := by
  obtain ⟨hlen, hlog, hset⟩ := h
  refine queueInv_processNext ⟨?_, hlog, ?_⟩
  · exact le_trans (s.running.erase_sublist t).length_le hlen
  · intro p hp
    rcases List.mem_append.mp hp with hmem | hmem
    · exact hset p hmem
    · rcases List.mem_singleton.mp hmem with rfl
      rfl

theorem queueInv_reach {E V : Type} {out : Nat → Except E V} {c : Nat}
    {s : QueueState E V} (h : Reach out c s) : QueueInv out s := by
  induction h with
  | init => exact ⟨by simp [initState], by simp [initState], by simp [initState]⟩
  | step _ hstep ih =>
      cases hstep with
      | add t => exact queueInv_add ih t
      | complete t hmem => exact queueInv_finish ih t

end RequestQueue

theorem count_pair_singleton (p q : String × DataKind) :
    List.count p [q] = if q = p then 1 else 0 := by
  simp [List.count_cons, List.count_nil, beq_iff_eq]

theorem prefetchOne_count {V : Type} (s : Store V) (now : Nat)
    (code code' : String) (kind : DataKind) :
    (prefetchOne s now code').count (code, kind) =
      if code' = code ∧
          freshHit (PersistentStorage.get s (prefetchKey kind code') now) = false
        then 1 else 0 := by
  cases kind <;>
    cases hhd : freshHit (PersistentStorage.get s (prefetchKey DataKind.detail code') now) <;>
    cases hhh : freshHit (PersistentStorage.get s (prefetchKey DataKind.history code') now) <;>
    cases hhp : freshHit (PersistentStorage.get s (prefetchKey DataKind.prediction code') now) <;>
      simp only [prefetchOne, hhd, hhh, hhp, Bool.not_false, Bool.not_true,
        List.count_append, count_pair_singleton, List.count_nil,
        ite_true, ite_false, Prod.mk.injEq] <;>
      by_cases hc : code' = code <;>
      simp [hc]

theorem flatMap_prefetch_count_notMem {V : Type} (s : Store V) (now : Nat)
    (stocks : List String) (code : String) (kind : DataKind)
    (h : code ∉ stocks) :
    (stocks.flatMap (prefetchOne s now)).count (code, kind) = 0 := by
  induction stocks with
  | nil => rfl
  | cons a rest ih =>
      simp only [List.mem_cons, not_or] at h
      rw [List.flatMap_cons, List.count_append, prefetchOne_count,
        ih h.2, if_neg, Nat.add_zero]
      exact fun hc => h.1 hc.1.symm

theorem fetchWithCache_error_of_get_none {E V : Type} {s : Store V}
    {key : String} {e : E} {force : Bool} {now ttl : Nat}
    (h : PersistentStorage.get s key now = none) :
    (fetchWithCache s key (Except.error e) force now ttl).result =
      Except.error e := by
  simp [fetchWithCache, h]

theorem fetchWithCache_ok_of_get_some {E V : Type} {s : Store V}
    {key : String} {e : E} {force : Bool} {now ttl : Nat} {c : GetResult V}
    (h : PersistentStorage.get s key now = some c) :
    (fetchWithCache s key (Except.error e) force now ttl).result =
      Except.ok c.value := by
  simp only [fetchWithCache, h]
  split <;> rfl

/-! #### A concrete queue execution used by the queue witnesses:
capacity 1, tasks 0, 1, 2 added in order, task 0's operation rejects. -/

/-- Witness task environment: task 0's operation rejects, the others
fulfil with their own id. -/
def outW : Nat → Except String Nat :=
  fun n => if n = 0 then Except.error "fail0" else Except.ok n

/-- `new RequestQueue(1)` after `add(task 0)`. -/
def qW1 : RequestQueue.QueueState String Nat :=
  RequestQueue.add (RequestQueue.initState String Nat 1) 0

/-- ... after `add(task 1)` (task 1 waits: capacity is full). -/
def qW2 : RequestQueue.QueueState String Nat :=
  RequestQueue.add qW1 1

/-- ... after `add(task 2)`. -/
def qW3 : RequestQueue.QueueState String Nat :=
  RequestQueue.add qW2 2

/-- ... after task 0's operation rejects and its completion handler runs. -/
def qW4 : RequestQueue.QueueState String Nat :=
  RequestQueue.finish qW3 0 (outW 0)

theorem reach_qW1 : RequestQueue.Reach outW 1 qW1 :=
  RequestQueue.Reach.step RequestQueue.Reach.init
    (RequestQueue.Step.add _ 0)

theorem reach_qW2 : RequestQueue.Reach outW 1 qW2 :=
  RequestQueue.Reach.step reach_qW1 (RequestQueue.Step.add _ 1)

theorem reach_qW3 : RequestQueue.Reach outW 1 qW3 :=
  RequestQueue.Reach.step reach_qW2 (RequestQueue.Step.add _ 2)

theorem reach_qW4 : RequestQueue.Reach outW 1 qW4 :=
  RequestQueue.Reach.step reach_qW3
    (RequestQueue.Step.complete _ 0 (by decide))

/-! ### Claim theorems -/

/-- C3: in every state reachable by any interleaving of `add` calls and
task completions, `0 ≤ activeCount ≤ capacity`; in particular, however
many tasks are submitted beyond the capacity, no more than `capacity`
operations are ever running concurrently. -/
theorem requestQueue_activeCount_le_capacity {E V : Type}
    (out : Nat → Except E V) (c : Nat) (s : RequestQueue.QueueState E V)
    (h : RequestQueue.Reach out c s) :
    0 ≤ s.running.length ∧ s.running.length ≤ s.concurrency :=
  ⟨Nat.zero_le _, (RequestQueue.queueInv_reach h).1⟩

/-- Witness for C3: 3 tasks submitted to a capacity-1 queue; in the state
after the three `add` calls, at most one operation is running. -/
theorem requestQueue_activeCount_le_capacity_witness :
    0 ≤ qW3.running.length ∧ qW3.running.length ≤ qW3.concurrency :=
  requestQueue_activeCount_le_capacity outW 1 qW3 reach_qW3

/-- C4: queue admission is strict FIFO relative to `add()` call order: in
every reachable state the `add()` log is exactly the admission log
followed by the still-pending tasks in order, so a later-added task is
never admitted before an earlier one still waiting, and without
contention tasks are admitted in their `add` order. -/
theorem requestQueue_fifo_admission {E V : Type}
    (out : Nat → Except E V) (c : Nat) (s : RequestQueue.QueueState E V)
    (h : RequestQueue.Reach out c s) :
    s.addLog = s.admitted ++ s.pending :=
  (RequestQueue.queueInv_reach h).2.1

/-- Witness for C4: after adding tasks 0, 1, 2 to a capacity-1 queue,
the add log `[0, 1, 2]` is the admitted log `[0]` followed by the pending
queue `[1, 2]`. -/
theorem requestQueue_fifo_admission_witness :
    qW3.addLog = qW3.admitted ++ qW3.pending :=
  requestQueue_fifo_admission outW 1 qW3 reach_qW3

/-- C5: every settled handle carries its own operation's outcome (a
rejecting operation rejects only its own handle; every sibling's handle
settles with its own operation's outcome), and completion decrements
`activeCount` by one whatever the outcome delivered — capacity is
released unconditionally. -/
theorem requestQueue_failure_isolation {E V : Type}
    (out : Nat → Except E V) (c : Nat) (s : RequestQueue.QueueState E V)
    (h : RequestQueue.Reach out c s) :
    (∀ p ∈ s.settled, p.2 = out p.1) ∧
    (∀ (t : Nat) (o : Except E V), t ∈ s.running →
      ((RequestQueue.settleTask s t o).running).length =
        s.running.length - 1) := by
  refine ⟨(RequestQueue.queueInv_reach h).2.2, fun t o hmem => ?_⟩
  simp [RequestQueue.settleTask, List.length_erase_of_mem hmem]

/-- Witness for C5: task 0's rejected handle carries task 0's own error,
and settling a running task releases exactly one capacity unit whether
its outcome is a fulfilment or a rejection. -/
theorem requestQueue_failure_isolation_witness :
    (Except.error "fail0" : Except String Nat) = outW 0 ∧
    ((RequestQueue.settleTask qW3 0 (Except.ok 99)).running).length =
      qW3.running.length - 1 :=
  ⟨(requestQueue_failure_isolation outW 1 qW4 reach_qW4).1
      (0, Except.error "fail0")
      (show (0, (Except.error "fail0" : Except String Nat)) ∈
          [(0, (Except.error "fail0" : Except String Nat))] from
        List.mem_singleton.mpr rfl),
   (requestQueue_failure_isolation outW 1 qW3 reach_qW3).2 0 (Except.ok 99)
      (by decide)⟩

/-- C6: for all keys `k`, values `v` and `ttl > 0`, after `set(k, v, ttl)`
succeeds, a `get(k)` whose clock is not yet past `storedAt + ttl` returns
the stored value `v` with `isExpired = false` (and `timestamp = storedAt`). -/
theorem set_then_get_fresh {V : Type} (s : Store V) (key : String) (v : V)
    (ttl now later : Nat) (_httl : 0 < ttl) (hc : later ≤ now + ttl) :
    PersistentStorage.get (PersistentStorage.set s key v ttl now) key later =
      some ⟨v, false, now⟩ := by
  simp [PersistentStorage.get, PersistentStorage.set]
  omega

/-- Witness for C6: `set("x", 42, ttl 1000)` at `t = 0`, read back at
`t = 500`. -/
theorem set_then_get_fresh_witness :
    PersistentStorage.get
        (PersistentStorage.set (Store.empty Nat) "x" 42 1000 0) "x" 500 =
      some ⟨42, false, 0⟩ :=
  set_then_get_fresh (Store.empty Nat) "x" 42 1000 0 500 (by decide) (by decide)

/-- C7: once the clock passes `storedAt + ttl` (`expiry < now`), `get(k)`
still returns the stored value, now flagged `isExpired = true` — reading
performs no write, so nothing is deleted on read (note `get` returns no
updated store: its only `localStorage` access is `getItem`).  The entry
stops being readable exactly under `remove(k)`, `clearAll()`,
`clearExpired()` (the entry being expired), or an overwriting `set(k, v')`. -/
theorem get_expired_entry {V : Type} (s : Store V) (key : String)
    (it : CacheItem V) (now : Nat) (v' : V) (ttl : Nat)
    (hs : s key = some it) (hexp : it.expiry < now) :
    PersistentStorage.get s key now = some ⟨it.value, true, it.timestamp⟩ ∧
    PersistentStorage.get (PersistentStorage.remove s key) key now = none ∧
    PersistentStorage.get (PersistentStorage.clearAll s) key now = none ∧
    PersistentStorage.get (PersistentStorage.clearExpired s now) key now = none ∧
    PersistentStorage.get (PersistentStorage.set s key v' ttl now) key now =
      some ⟨v', decide (now + ttl < now), now⟩ := by
  refine ⟨?_, ?_, ?_, ?_, ?_⟩
  · simp [PersistentStorage.get, hs, hexp]
  · simp [PersistentStorage.get, PersistentStorage.remove]
  · simp [PersistentStorage.get, PersistentStorage.clearAll]
  · simp [PersistentStorage.get, PersistentStorage.clearExpired, hs, hexp]
  · simp [PersistentStorage.get, PersistentStorage.set]

/-- C1: when the queued fetcher rejects with `e`, the `fetchWithCache`
call rejects exactly when no cache entry existed for the key at lookup
time; if an entry existed — fresh or expired — the call resolves with that
cached value; with no entry, the fetcher's error is propagated. -/
theorem fetchWithCache_reject_iff_no_entry {E V : Type} (s : Store V)
    (key : String) (e : E) (force : Bool) (now ttl : Nat) :
    ((fetchWithCache s key (Except.error e) force now ttl).result =
        Except.error e ↔ PersistentStorage.get s key now = none) ∧
    (∀ c : GetResult V, PersistentStorage.get s key now = some c →
      (fetchWithCache s key (Except.error e) force now ttl).result =
        Except.ok c.value) ∧
    (PersistentStorage.get s key now = none →
      (fetchWithCache s key (Except.error e) force now ttl).result =
        Except.error e) := by
  refine ⟨⟨fun hr => ?_, fun hn => fetchWithCache_error_of_get_none hn⟩,
    fun c hc => fetchWithCache_ok_of_get_some hc,
    fun hn => fetchWithCache_error_of_get_none hn⟩
  cases hg : PersistentStorage.get s key now with
  | none => rfl
  | some c => rw [fetchWithCache_ok_of_get_some hg] at hr; cases hr

/-- Witness for C1: an expired entry `42` under `"k"` is served when the
fetch rejects, while the same rejection on an empty store propagates. -/
theorem fetchWithCache_reject_iff_no_entry_witness :
    (fetchWithCache (PersistentStorage.set (Store.empty Nat) "k" 42 10 0)
        "k" (Except.error "boom") false 100 1000).result = Except.ok 42 ∧
    (fetchWithCache (Store.empty Nat) "k" (Except.error "boom")
        false 100 1000).result = Except.error "boom" :=
  ⟨(fetchWithCache_reject_iff_no_entry
      (PersistentStorage.set (Store.empty Nat) "k" 42 10 0)
      "k" "boom" false 100 1000).2.1 ⟨42, true, 0⟩ (by rfl),
   (fetchWithCache_reject_iff_no_entry (Store.empty Nat)
      "k" "boom" false 100 1000).2.2 (by rfl)⟩

/-- C2: the fetcher goes through the bounded queue exactly when the caller
forces a refresh or no non-expired entry exists for the key (`queuedCalls
= 1`, and exactly one submission happens even with a fresh entry under
force-refresh); with a fresh entry and no force-refresh the cached value
is returned with no queue interaction and the store untouched
(`queuedCalls = 0`). -/
theorem fetchWithCache_queue_iff {E V : Type} (s : Store V) (key : String)
    (f : Except E V) (force : Bool) (now ttl : Nat) :
    ((fetchWithCache s key f force now ttl).queuedCalls = 1 ↔
      (force = true ∨ freshHit (PersistentStorage.get s key now) = false)) ∧
    (∀ c : GetResult V, PersistentStorage.get s key now = some c →
      c.isExpired = false → force = false →
      fetchWithCache s key f force now ttl =
        { result := Except.ok c.value, store := s, queuedCalls := 0 }) := by
  constructor
  · cases hg : PersistentStorage.get s key now with
    | none =>
        simp only [fetchWithCache, hg, freshHit]
        cases f <;> simp
    | some c =>
        simp only [fetchWithCache, hg, freshHit]
        cases hexp : c.isExpired <;> cases force <;> cases f <;> simp
  · intro c hc hexp hforce
    simp [fetchWithCache, hc, hexp, hforce]

/-- Witness for C2: a fresh entry `42` under `"k"` is served with zero
queue submissions when not forced, and the same state under force-refresh
submits exactly one queued operation. -/
theorem fetchWithCache_queue_iff_witness :
    fetchWithCache (PersistentStorage.set (Store.empty Nat) "k" 42 1000 0)
        "k" (Except.ok 7 : Except String Nat) false 100 1000 =
      { result := Except.ok 42
        store := PersistentStorage.set (Store.empty Nat) "k" 42 1000 0
        queuedCalls := 0 } ∧
    (fetchWithCache (PersistentStorage.set (Store.empty Nat) "k" 42 1000 0)
        "k" (Except.ok 7 : Except String Nat) true 100 1000).queuedCalls = 1 :=
  ⟨(fetchWithCache_queue_iff
      (PersistentStorage.set (Store.empty Nat) "k" 42 1000 0)
      "k" (Except.ok 7 : Except String Nat) false 100 1000).2 ⟨42, false, 0⟩
      (by rfl) (by rfl) (by rfl),
   ((fetchWithCache_queue_iff
      (PersistentStorage.set (Store.empty Nat) "k" 42 1000 0)
      "k" (Except.ok 7 : Except String Nat) true 100 1000).1).mpr
      (Or.inl rfl)⟩

/-- Witness for C7: the entry `{value 42, storedAt 0, expiry 1000}` read at
`t = 1500`. -/
theorem get_expired_entry_witness :
    PersistentStorage.get
        (PersistentStorage.set (Store.empty Nat) "x" 42 1000 0) "x" 1500 =
      some ⟨42, true, 0⟩ :=
  (get_expired_entry
    (PersistentStorage.set (Store.empty Nat) "x" 42 1000 0) "x"
    ⟨42, 0, 1000⟩ 1500 99 1000 (by rfl) (by decide)).1

/-- C8: for every entity of the just-fetched list and each of its three
cache keys, the prefetch scheduler skips the key exactly when a
non-expired entry exists and otherwise initiates exactly one
corresponding orchestrator fetch per `(entity, data-kind)` per
invocation. -/
theorem prefetch_count_spec {V : Type} (s : Store V) (now : Nat)
    (stocks : List String) (code : String) (kind : DataKind)
    (hnd : stocks.Nodup) (hmem : code ∈ stocks) :
    (prefetchAllStocksDetails s stocks now).count (code, kind) =
      if freshHit (PersistentStorage.get s (prefetchKey kind code) now) = true
        then 0 else 1 := by
  induction stocks with
  | nil => cases hmem
  | cons a rest ih =>
      rcases List.mem_cons.mp hmem with rfl | hm
      · have hnr : code ∉ rest := (List.nodup_cons.mp hnd).1
        rw [prefetchAllStocksDetails, List.flatMap_cons, List.count_append,
          prefetchOne_count, flatMap_prefetch_count_notMem s now rest code kind hnr]
        cases hf : freshHit (PersistentStorage.get s (prefetchKey kind code) now) <;>
          simp [hf]
      · have hne : ¬a = code := by
          rintro rfl
          exact (List.nodup_cons.mp hnd).1 hm
        rw [prefetchAllStocksDetails, List.flatMap_cons, List.count_append,
          prefetchOne_count, if_neg (fun hc => hne hc.1), Nat.zero_add]
        exact ih (List.nodup_cons.mp hnd).2 hm

/-- The store of the C8 witness scenario: of the three stocks `A`, `B`,
`C`, only `A` has a (fresh) detail entry. -/
def sW : Store Nat :=
  PersistentStorage.set (Store.empty Nat) "stock_detail_A" 1 100 0

/-- Witness for C8: with 3 entities of which one has a fresh detail entry
and two do not, exactly 2 detail-refresh operations are initiated (one
per uncovered entity, none for the covered one). -/
theorem prefetch_count_spec_witness :
    (prefetchAllStocksDetails sW ["A", "B", "C"] 10).count
        ("A", DataKind.detail) = 0 ∧
    (prefetchAllStocksDetails sW ["A", "B", "C"] 10).count
        ("B", DataKind.detail) = 1 ∧
    (prefetchAllStocksDetails sW ["A", "B", "C"] 10).count
        ("C", DataKind.detail) = 1 :=
  ⟨prefetch_count_spec sW 10 ["A", "B", "C"] "A" DataKind.detail
      (by decide) (by decide),
   prefetch_count_spec sW 10 ["A", "B", "C"] "B" DataKind.detail
      (by decide) (by decide),
   prefetch_count_spec sW 10 ["A", "B", "C"] "C" DataKind.detail
      (by decide) (by decide)⟩

/-- C9: in the derived-metrics computation, a current price of `0` yields
all three percentage deltas exactly `0` for any predicted prices (the
division branch is never taken); a nonzero current price yields each
percentage delta as the corresponding delta over the current price, times
100, rounded to 2 decimals. -/
theorem computeChanges_zero_guard (c p1 p2 : ℚ) :
    (c = 0 →
      (computeChanges c p1 p2).changePercent1 = 0 ∧
      (computeChanges c p1 p2).changePercent2 = 0 ∧
      (computeChanges c p1 p2).averageChangePercent = 0) ∧
    (c ≠ 0 →
      (computeChanges c p1 p2).changePercent1 =
        toFixed2 ((p1 - c) / c * 100) ∧
      (computeChanges c p1 p2).changePercent2 =
        toFixed2 ((p2 - c) / c * 100) ∧
      (computeChanges c p1 p2).averageChangePercent =
        toFixed2 (((p1 - c) + (p2 - c)) / 2 / c * 100)) := by
  constructor
  · intro h
    simp [computeChanges, h]
  · intro h
    simp [computeChanges, h]

/-- Witness for C9: current price `0` with predicted prices `5` and `7`
gives percentage deltas `0`; current price `4` gives `25`, `75` and `50`. -/
theorem computeChanges_zero_guard_witness :
    ((computeChanges 0 5 7).changePercent1 = 0 ∧
     (computeChanges 0 5 7).changePercent2 = 0 ∧
     (computeChanges 0 5 7).averageChangePercent = 0) ∧
    (computeChanges 4 5 7).changePercent1 = toFixed2 ((5 - 4) / 4 * 100) :=
  ⟨(computeChanges_zero_guard 0 5 7).1 rfl,
   ((computeChanges_zero_guard 4 5 7).2 (by norm_num)).1⟩

/-- C10: `refreshStocksData` first deletes every entry of the store's
namespace via `clearAll`, then re-runs the list fetch; hence when that
fetch rejects, the call rejects — the prior `stocks_list` entry, which the
per-call force-refresh path would have served as a stale fallback, is
gone. -/
theorem refreshStocksData_forfeits_fallback {E V : Type} (s : Store V)
    (e : E) (now ttl : Nat) :
    (∀ k, PersistentStorage.clearAll s k = none) ∧
    (refreshStocksData s (Except.error e) now ttl).result = Except.error e ∧
    (∀ c : GetResult V,
      PersistentStorage.get s stocksListKey now = some c →
      (fetchWithCache s stocksListKey (Except.error e) true now ttl).result =
        Except.ok c.value) := by
  refine ⟨fun k => rfl, ?_, fun c hc => fetchWithCache_ok_of_get_some hc⟩
  exact fetchWithCache_error_of_get_none (by rfl)

/-- Witness for C10: with a fresh `stocks_list` entry `7` present, a
failing refresh still rejects, while a force-refresh call with the same
failing fetch resolves with the cached `7`. -/
theorem refreshStocksData_forfeits_fallback_witness :
    (refreshStocksData
        (PersistentStorage.set (Store.empty Nat) stocksListKey 7 1000 0)
        (Except.error "down") 50 100).result = Except.error "down" ∧
    (fetchWithCache
        (PersistentStorage.set (Store.empty Nat) stocksListKey 7 1000 0)
        stocksListKey (Except.error "down") true 50 100).result =
      Except.ok 7 :=
  ⟨(refreshStocksData_forfeits_fallback
      (PersistentStorage.set (Store.empty Nat) stocksListKey 7 1000 0)
      "down" 50 100).2.1,
   (refreshStocksData_forfeits_fallback
      (PersistentStorage.set (Store.empty Nat) stocksListKey 7 1000 0)
      "down" 50 100).2.2 ⟨7, false, 0⟩ (by rfl)⟩

end StockApp
